import Mathlib

set_option maxHeartbeats 1000000

/-!
Shallow embedding of the `safe_cache` crate: an in-process expiring
key-value cache with type-erased values.

Source files embedded here:
  - `src/lib.rs`: `Cache` (Mutex-guarded HashMap), `CacheRwLock`
    (RwLock-guarded HashMap), their `get` / `set` / `remove` /
    `clear_expired_entries` operations, and `async_cleanup_task`.
  - `src/main.rs`: a standalone `Cache` variant (here `MainCache`) whose
    operations `.unwrap()` the lock, plus `start_cleanup_thread`.

Modelling choices:
  - `SystemTime` is modelled as `Nat` (seconds); `SystemTime::now() +
    Duration::from_secs(s)` becomes `now + s`, with `now` passed explicitly
    to every operation that reads the clock in the source.
  - `HashMap<String, _>` is modelled as an association list with
    replace-on-insert semantics (`mapInsert`); `len` is `List.length`,
    `retain` is `List.filter`.
  - `dyn Any` with `downcast_ref::<T>` is modelled by `AnyVal`: a value
    paired with a runtime type tag (`Ty`, mirroring `TypeId`); the
    downcast succeeds exactly when the requested tag equals the stored tag.
  - Lock acquisition results are modelled by explicit `Bool` flags: a flag
    set to `true` means the corresponding `Mutex` / `RwLock` is poisoned
    (its `lock()` / `read()` / `write()` returns `Err`).  The `lib.rs`
    operations pattern-match on the result and bail out; the `main.rs`
    operations call `.unwrap()`, whose panic is modelled by returning
    `none` from an `Option`-valued result.
-/

/-- Runtime type tags, mirroring `std::any::TypeId` for the value types the
repository stores (`i32`, `i16`, `u16`, `String`, `Vec<i32>`).  Two tags are
equal exactly when the Rust types are identical. -/
inductive Ty
  | i32
  | i16
  | u16
  | str
  | listI32
  deriving DecidableEq

/-- Carrier of each type tag. `i32`/`i16` are both carried by `Int`: type
identity in the model is the tag, exactly as `TypeId` distinguishes Rust
types with identical representations. -/
abbrev Ty.interp : Ty → Type
  | .i32 => Int
  | .i16 => Int
  | .u16 => Nat
  | .str => String
  | .listI32 => List Int

/-- A type-erased stored value: the model of `Box<dyn Any>` (or the value
behind `Arc<Mutex<dyn Any + Send>>`): a runtime type tag plus a value of
that type. -/
structure AnyVal where
  ty : Ty
  val : ty.interp

/-- Model of `value.downcast_ref::<T>().cloned()`: succeeds with the stored
value exactly when the requested type tag equals the stored tag. -/
def AnyVal.downcast (a : AnyVal) (t : Ty) : Option t.interp :=
  if h : a.ty = t then some (h ▸ a.val) else none

/-- One map entry: the pair `(Arc<Mutex<dyn Any + Send>>, Option<SystemTime>)`
stored per key.  `expiresAt = none` means the entry never expires. -/
structure Entry where
  value : AnyVal
  expiresAt : Option Nat

/-- The map state of a cache: `HashMap<String, Entry>` as an association
list (keys unique in any state the code builds). -/
abbrev CacheMap := List (String × Entry)

/-- `HashMap::get`: first (unique) binding of the key, if any. -/
def mapGet (m : CacheMap) (k : String) : Option Entry :=
  match m with
  | [] => none
  | (k1, e) :: rest => if k1 = k then some e else mapGet rest k

/-- `HashMap::insert`: replace the binding of `k` if present, otherwise add
a new binding. -/
def mapInsert (m : CacheMap) (k : String) (e : Entry) : CacheMap :=
  match m with
  | [] => [(k, e)]
  | (k1, e1) :: rest =>
    if k1 = k then (k, e) :: rest else (k1, e1) :: mapInsert rest k e

/-- `HashMap::remove`: drop the binding of `k` if present. -/
def mapRemove (m : CacheMap) (k : String) : CacheMap :=
  match m with
  | [] => []
  | (k1, e) :: rest => if k1 = k then rest else (k1, e) :: mapRemove rest k

/-- `Cache::get` from `src/lib.rs` (lines 17-31).  `mapPoisoned` models
`self.data.lock()` returning `Err` (then `get` returns `None`);
`valPoisoned` models the entry's own value lock being poisoned (then
`get` returns `None`).  Otherwise the stored value is downcast to the
requested type.  No clock is read: the entry's `expires_at` is never
consulted. -/
def Cache.get (mapPoisoned valPoisoned : Bool) (m : CacheMap) (k : String)
    (t : Ty) : Option t.interp :=
  if mapPoisoned then none
  else
    match mapGet m k with
    | some e => if valPoisoned then none else e.value.downcast t
    | none => none

/-- `Cache::set` from `src/lib.rs` (lines 32-53).  `expire_seconds == 0`
yields no expiration, otherwise `expires_at = now + expire_seconds`.  On a
poisoned map lock the operation returns with the map unchanged.  If more
than 10240 entries are stored the whole map is cleared before the insert. -/
def Cache.set (poisoned : Bool) (m : CacheMap) (k : String) (v : AnyVal)
    (expire_seconds now : Nat) : CacheMap :=
  let expiration_time : Option Nat :=
    if expire_seconds = 0 then none else some (now + expire_seconds)
  if poisoned then m
  else mapInsert (if m.length > 10240 then [] else m) k ⟨v, expiration_time⟩

/-- `Cache::remove` from `src/lib.rs` (lines 55-63): no-op on a poisoned
lock, otherwise removes the key. -/
def Cache.remove (poisoned : Bool) (m : CacheMap) (k : String) : CacheMap :=
  if poisoned then m else mapRemove m k

/-- `Cache::clear_expired_entries` from `src/lib.rs` (lines 65-73):
`data.retain(.. expiration_time.map_or(true, |et| et > now))` — keep an
entry iff it has no expiration or its expiration is strictly after `now`. -/
def Cache.clear_expired_entries (poisoned : Bool) (m : CacheMap)
    (now : Nat) : CacheMap :=
  if poisoned then m
  else m.filter fun kv => kv.2.expiresAt.elim true fun et => decide (now < et)

/-- `CacheRwLock::get` from `src/lib.rs` (lines 118-132): same shape as
`Cache::get` with `read()` in place of `lock()`; a failed read lock yields
`None`, and `expires_at` is never consulted. -/
def CacheRwLock.get (mapPoisoned valPoisoned : Bool) (m : CacheMap)
    (k : String) (t : Ty) : Option t.interp :=
  if mapPoisoned then none
  else
    match mapGet m k with
    | some e => if valPoisoned then none else e.value.downcast t
    | none => none

/-- `CacheRwLock::set` from `src/lib.rs` (lines 134-160): identical logic
to `Cache::set`, with `write()` in place of `lock()`. -/
def CacheRwLock.set (poisoned : Bool) (m : CacheMap) (k : String)
    (v : AnyVal) (expire_seconds now : Nat) : CacheMap :=
  let expiration_time : Option Nat :=
    if expire_seconds = 0 then none else some (now + expire_seconds)
  if poisoned then m
  else mapInsert (if m.length > 10240 then [] else m) k ⟨v, expiration_time⟩

/-- `CacheRwLock::remove` from `src/lib.rs` (lines 162-169). -/
def CacheRwLock.remove (poisoned : Bool) (m : CacheMap) (k : String) :
    CacheMap :=
  if poisoned then m else mapRemove m k

/-- `CacheRwLock::clear_expired_entries` from `src/lib.rs` (lines 171-182):
`retain(.. match expiration_time { Some(time) => now <= time, None => true })`
— keep an entry iff it has no expiration or `now <= time`.  Note the
non-strict comparison, unlike `Cache::clear_expired_entries`. -/
def CacheRwLock.clear_expired_entries (poisoned : Bool) (m : CacheMap)
    (now : Nat) : CacheMap :=
  if poisoned then m
  else
    m.filter fun kv =>
      match kv.2.expiresAt with
      | some time => decide (now ≤ time)
      | none => true

/-- `Cache::get` from `src/main.rs` (lines 17-25): `self.data.lock().unwrap()`.
The `.unwrap()` panics on a poisoned lock; a panic is modelled as the outer
`none`, while a normal return of `r` is `some r`. -/
def MainCache.get (mapPoisoned valPoisoned : Bool) (m : CacheMap)
    (k : String) (t : Ty) : Option (Option t.interp) :=
  if mapPoisoned then none
  else
    match mapGet m k with
    | some e => if valPoisoned then none else some (e.value.downcast t)
    | none => some none

/-- `Cache::set` from `src/main.rs` (lines 26-39): computes the expiration
exactly like `lib.rs`, then `.unwrap()`s the lock (panic modelled as `none`)
and inserts unconditionally — there is no capacity check in this variant. -/
def MainCache.set (poisoned : Bool) (m : CacheMap) (k : String) (v : AnyVal)
    (expire_seconds now : Nat) : Option CacheMap :=
  let expiration_time : Option Nat :=
    if expire_seconds = 0 then none else some (now + expire_seconds)
  if poisoned then none
  else some (mapInsert m k ⟨v, expiration_time⟩)

/-- `Cache::remove` from `src/main.rs` (lines 41-44): `.unwrap()`s the lock
(panic modelled as `none`), then removes the key. -/
def MainCache.remove (poisoned : Bool) (m : CacheMap) (k : String) :
    Option CacheMap :=
  if poisoned then none else some (mapRemove m k)

/-- `Cache::clear_expired_entries` from `src/main.rs` (lines 46-51): same
retain predicate as `lib.rs`'s `Cache` (`et > now`), behind `.unwrap()`. -/
def MainCache.clear_expired_entries (poisoned : Bool) (m : CacheMap)
    (now : Nat) : Option CacheMap :=
  if poisoned then none
  else
    some (m.filter fun kv =>
      kv.2.expiresAt.elim true fun et => decide (now < et))

/-- Sweep schedule of `start_cleanup_thread` from `src/main.rs` (lines
53-60): each loop iteration first sleeps `secs` seconds and then calls
`clear_expired_entries`, so (counting from the driver start, with the sweep
itself taking no time) the n-th sweep, 0-indexed, happens at `(n+1) * secs`
seconds. -/
def threadSweepTime (secs n : Nat) : Nat := (n + 1) * secs

/-- Sweep schedule of `async_cleanup_task` (and the identical
`async_cleanup_task_rwlock`) from `src/lib.rs` (lines 86-94): the loop
awaits `tokio::time::interval(secs).tick()` and then sweeps.  Per tokio's
documented semantics, the first tick of an `Interval` completes
immediately, and subsequent ticks come every `secs` seconds; so the n-th
sweep, 0-indexed, happens at `n * secs` seconds after the driver starts. -/
def asyncSweepTime (secs n : Nat) : Nat := n * secs

/-- One abstract cache operation; `now` is the clock value the operation
would observe (only `set` and `sweep` read the clock in the source,
`get` and `remove` never do). -/
inductive Op
  | opSet (k : String) (v : AnyVal) (expire_seconds now : Nat)
  | opGet (k : String) (t : Ty)
  | opRemove (k : String)
  | opSweep (now : Nat)

/-- Effect of one operation on a `Cache`'s map (healthy locks): `get` only
reads (its body performs a map lookup and a downcast and never mutates), the
other three are the corresponding mutations. -/
def Cache.applyOp (m : CacheMap) : Op → CacheMap
  | .opSet k v es now => Cache.set false m k v es now
  | .opGet _ _ => m
  | .opRemove k => Cache.remove false m k
  | .opSweep now => Cache.clear_expired_entries false m now

/-- Effect of a sequence of operations on a `Cache`'s map. -/
def Cache.applyOps (m : CacheMap) (ops : List Op) : CacheMap :=
  ops.foldl Cache.applyOp m

/-- Effect of one operation on a `CacheRwLock`'s map (healthy locks). -/
def CacheRwLock.applyOp (m : CacheMap) : Op → CacheMap
  | .opSet k v es now => CacheRwLock.set false m k v es now
  | .opGet _ _ => m
  | .opRemove k => CacheRwLock.remove false m k
  | .opSweep now => CacheRwLock.clear_expired_entries false m now

/-- Effect of a sequence of operations on a `CacheRwLock`'s map. -/
def CacheRwLock.applyOps (m : CacheMap) (ops : List Op) : CacheMap :=
  ops.foldl CacheRwLock.applyOp m

/-- A map with `n` distinct keys (`"a"`, `"aa"`, `"aaa"`, ...), used to
exercise the capacity bound on concrete over-full states. -/
def bigMap : Nat → CacheMap
  | 0 => []
  | n + 1 =>
    (String.mk (List.replicate (n + 1) 'a'), ⟨⟨Ty.i32, (0 : Int)⟩, none⟩) ::
      bigMap n

/-! ## Helper lemmas about the map model -/

theorem AnyVal.downcast_self (t : Ty) (v : t.interp) :
    AnyVal.downcast ⟨t, v⟩ t = some v := by
  unfold AnyVal.downcast
  rw [dif_pos rfl]

theorem AnyVal.downcast_ne (s t : Ty) (v : s.interp) (h : s ≠ t) :
    AnyVal.downcast ⟨s, v⟩ t = none := by
  unfold AnyVal.downcast
  rw [dif_neg h]

theorem mapGet_mapInsert_self (m : CacheMap) (k : String) (e : Entry) :
    mapGet (mapInsert m k e) k = some e := by
  induction m with
  | nil => simp [mapInsert, mapGet]
  | cons hd tl ih =>
    by_cases h : hd.1 = k
    · simp [mapInsert, mapGet, h]
    · simp [mapInsert, mapGet, h, ih]

theorem mapInsert_length_le (m : CacheMap) (k : String) (e : Entry) :
    (mapInsert m k e).length ≤ m.length + 1 := by
  induction m with
  | nil => simp [mapInsert]
  | cons hd tl ih =>
    by_cases h : hd.1 = k
    · simp [mapInsert, h]
    · simpa [mapInsert, h] using ih

theorem mapInsert_length_ge (m : CacheMap) (k : String) (e : Entry) :
    m.length ≤ (mapInsert m k e).length := by
  induction m with
  | nil => simp [mapInsert]
  | cons hd tl ih =>
    by_cases h : hd.1 = k
    · simp [mapInsert, h]
    · simpa [mapInsert, h] using ih

theorem mapRemove_length_le (m : CacheMap) (k : String) :
    (mapRemove m k).length ≤ m.length := by
  induction m with
  | nil => simp [mapRemove]
  | cons hd tl ih =>
    by_cases h : hd.1 = k
    · simp [mapRemove, h]
    · simp only [mapRemove, h, if_false, List.length_cons]
      omega

theorem bigMap_length (n : Nat) : (bigMap n).length = n := by
  induction n with
  | zero => rfl
  | succ n ih => simp [bigMap, ih]

/-! ## Claim theorems -/

/-- Claim C1, counterexample: `set "a" 1` with ttl 1 at time 0 stores
`expires_at = 1`; at any later call time (e.g. 5 > 1, after expiry) `get`
still returns `some 1` in both variants — it cannot do otherwise, since
neither `Cache::get` nor `CacheRwLock::get` reads the clock or the stored
`expires_at`.  This contradicts the claim that an entry whose `expires_at`
is past returns `None` from `get` without a sweep. -/
theorem c1_counterexample :
    mapGet (Cache.set false [] "a" ⟨Ty.i32, (1 : Int)⟩ 1 0) "a"
      = some ⟨⟨Ty.i32, (1 : Int)⟩, some 1⟩ ∧
    (1 : Nat) < 5 ∧
    Cache.get false false (Cache.set false [] "a" ⟨Ty.i32, (1 : Int)⟩ 1 0)
      "a" Ty.i32 = some 1 ∧
    CacheRwLock.get false false
      (CacheRwLock.set false [] "a" ⟨Ty.i32, (1 : Int)⟩ 1 0) "a" Ty.i32
      = some 1 :=
  ⟨rfl, by decide, rfl, rfl⟩

/-- Claim C1 (amended): `get` does not check expiry at read time in either
variant: whenever the key is bound to an entry, `get` returns exactly the
downcast of the stored value, regardless of the entry's `expires_at` and
of the call time (an expired entry keeps being returned until a sweep
physically removes it). -/
theorem c1_amended_get_ignores_expiry (m : CacheMap) (k : String) (t : Ty)
    (e : Entry) (hm : mapGet m k = some e) :
    Cache.get false false m k t = e.value.downcast t ∧
    CacheRwLock.get false false m k t = e.value.downcast t := by
  simp [Cache.get, CacheRwLock.get, hm]

/-- Claim C1, witness for the amended theorem at a concrete expired entry. -/
theorem c1_witness :
    mapGet [("a", ⟨⟨Ty.i32, (1 : Int)⟩, some 1⟩)] "a"
      = some ⟨⟨Ty.i32, (1 : Int)⟩, some 1⟩ ∧
    Cache.get false false [("a", ⟨⟨Ty.i32, (1 : Int)⟩, some 1⟩)] "a" Ty.i32
      = AnyVal.downcast ⟨Ty.i32, (1 : Int)⟩ Ty.i32 :=
  ⟨rfl, (c1_amended_get_ignores_expiry
    [("a", ⟨⟨Ty.i32, (1 : Int)⟩, some 1⟩)] "a" Ty.i32
    ⟨⟨Ty.i32, (1 : Int)⟩, some 1⟩ rfl).1⟩

/-- Claim C2, counterexample: an entry whose `expires_at` equals the
current time (so "at or before the current time") is RETAINED by
`CacheRwLock::clear_expired_entries`, whose retain predicate is the
non-strict `now <= time`; the claim says such an entry is removed in both
variants. -/
theorem c2_counterexample :
    (5 : Nat) ≤ 5 ∧
    CacheRwLock.clear_expired_entries false
      [("a", ⟨⟨Ty.i32, (1 : Int)⟩, some 5⟩)] 5
      = [("a", ⟨⟨Ty.i32, (1 : Int)⟩, some 5⟩)] :=
  ⟨by decide, rfl⟩

/-- Claim C2 (amended): both sweeps always retain entries with no
expiration; `Cache::clear_expired_entries` retains an expiring entry iff
`now < expires_at` (removes exactly those with `expires_at <= now`), while
`CacheRwLock::clear_expired_entries` retains it iff `now <= expires_at`
(removes exactly those with `expires_at < now`, keeping entries that
expire exactly at `now`). -/
theorem c2_amended_sweep_characterization (m : CacheMap) (now : Nat)
    (kv : String × Entry) :
    (kv ∈ Cache.clear_expired_entries false m now ↔
      kv ∈ m ∧ ∀ et, kv.2.expiresAt = some et → now < et) ∧
    (kv ∈ CacheRwLock.clear_expired_entries false m now ↔
      kv ∈ m ∧ ∀ et, kv.2.expiresAt = some et → now ≤ et) := by
  rcases h : kv.2.expiresAt with _ | et0 <;>
    constructor <;>
    simp [Cache.clear_expired_entries, CacheRwLock.clear_expired_entries,
      List.mem_filter, h]

/-- Claim C5: `set(k, v, 0)` stores the entry with an ABSENT `expires_at`
(ttl 0 means "no expiration", not "already expired"), and an immediately
following `get` at the same type returns `some v`, in both variants. -/
theorem c5_set_zero_ttl_get (m : CacheMap) (k : String) (t : Ty)
    (v : t.interp) (now : Nat) :
    Cache.get false false (Cache.set false m k ⟨t, v⟩ 0 now) k t = some v ∧
    (mapGet (Cache.set false m k ⟨t, v⟩ 0 now) k).map Entry.expiresAt
      = some none ∧
    CacheRwLock.get false false (CacheRwLock.set false m k ⟨t, v⟩ 0 now) k t
      = some v ∧
    (mapGet (CacheRwLock.set false m k ⟨t, v⟩ 0 now) k).map Entry.expiresAt
      = some none := by
  simp [Cache.get, Cache.set, CacheRwLock.get, CacheRwLock.set,
    mapGet_mapInsert_self, AnyVal.downcast_self]

/-- Claim C6: if the entry under `k` was stored at type `s`, a `get`
requesting a different type `t` returns no value (no conversion, no
error) — indistinguishable from a missing key (`get` on the empty map) —
while a `get` requesting exactly `s` returns the stored value; likewise
for the `CacheRwLock` and `main.rs` variants. -/
theorem c6_type_mismatch (m : CacheMap) (k : String) (s t : Ty)
    (v : s.interp) (ea : Option Nat)
    (hm : mapGet m k = some ⟨⟨s, v⟩, ea⟩) (hne : s ≠ t) :
    Cache.get false false m k t = none ∧
    Cache.get false false m k s = some v ∧
    Cache.get false false m k t = Cache.get false false [] k t ∧
    CacheRwLock.get false false m k t = none ∧
    CacheRwLock.get false false m k s = some v ∧
    MainCache.get false false m k t = some none ∧
    MainCache.get false false m k s = some (some v) := by
  simp [Cache.get, CacheRwLock.get, MainCache.get, hm, mapGet,
    AnyVal.downcast_self, AnyVal.downcast_ne s t v hne]

/-- Claim C6, witness: an `i32` stored under `"k"`, requested as `String`,
yields no value. -/
theorem c6_witness :
    mapGet [("k", ⟨⟨Ty.i32, (42 : Int)⟩, none⟩)] "k"
      = some ⟨⟨Ty.i32, (42 : Int)⟩, none⟩ ∧
    Ty.i32 ≠ Ty.str ∧
    Cache.get false false [("k", ⟨⟨Ty.i32, (42 : Int)⟩, none⟩)] "k" Ty.str
      = none :=
  ⟨rfl, by decide,
    (c6_type_mismatch [("k", ⟨⟨Ty.i32, (42 : Int)⟩, none⟩)] "k" Ty.i32 Ty.str
      42 none rfl (by decide)).1⟩

/-- Claim C9: `get` never modifies the map — in both `lib.rs` variants its
body only performs a lookup and a downcast, so the state component of a
`get` step is the identity on every map, in particular on maps whose
looked-up entry is expired. -/
theorem c9_get_frame (m : CacheMap) (k : String) (t : Ty) :
    Cache.applyOp m (Op.opGet k t) = m ∧
    CacheRwLock.applyOp m (Op.opGet k t) = m :=
  ⟨rfl, rfl⟩

/-- Claim C3, counterexample: `main.rs`'s `Cache::set` has no capacity
check.  On a concrete map with 10241 (> 10240) entries, `set` does not
clear the map: it inserts into the full map, and the result keeps at least
10241 entries — not "exactly the newly inserted key". -/
theorem c3_counterexample :
    (bigMap 10241).length > 10240 ∧
    MainCache.set false (bigMap 10241) "k" ⟨Ty.i32, (7 : Int)⟩ 60 0
      = some (mapInsert (bigMap 10241) "k" ⟨⟨Ty.i32, (7 : Int)⟩, some 60⟩) ∧
    10241 ≤ (mapInsert (bigMap 10241) "k"
      ⟨⟨Ty.i32, (7 : Int)⟩, some 60⟩).length ∧
    (mapInsert (bigMap 10241) "k"
      ⟨⟨Ty.i32, (7 : Int)⟩, some 60⟩).length ≠ 1 := by
  have h1 : (bigMap 10241).length = 10241 := bigMap_length 10241
  have h2 := mapInsert_length_ge (bigMap 10241) "k"
    ⟨⟨Ty.i32, (7 : Int)⟩, some 60⟩
  exact ⟨by omega, rfl, by omega, by omega⟩

/-- Claim C3 (amended): in `lib.rs`, both `Cache::set` and
`CacheRwLock::set` clear the whole map before inserting when more than
10240 entries are stored, so the map afterwards is exactly the newly
inserted key, and no error is raised; `main.rs`'s `Cache::set`, however,
has no capacity check at all — it never shrinks the map (the result of a
successful `set` is at least as large as before). -/
theorem c3_amended_overflow_flush (m : CacheMap) (k : String) (v : AnyVal)
    (es now : Nat) (h : m.length > 10240) :
    Cache.set false m k v es now
      = [(k, ⟨v, if es = 0 then none else some (now + es)⟩)] ∧
    CacheRwLock.set false m k v es now
      = [(k, ⟨v, if es = 0 then none else some (now + es)⟩)] ∧
    ∀ m2, MainCache.set false m k v es now = some m2 →
      m.length ≤ m2.length := by
  refine ⟨?_, ?_, ?_⟩
  · simp [Cache.set, h, mapInsert]
  · simp [CacheRwLock.set, h, mapInsert]
  · intro m2 hm2
    simp [MainCache.set] at hm2
    rw [← hm2]
    exact mapInsert_length_ge m k _

/-- Claim C3, witness for the amended theorem on a concrete over-full map. -/
theorem c3_witness :
    (bigMap 10241).length > 10240 ∧
    Cache.set false (bigMap 10241) "k" ⟨Ty.i32, (7 : Int)⟩ 0 0
      = [("k", ⟨⟨Ty.i32, (7 : Int)⟩, none⟩)] := by
  have h : (bigMap 10241).length > 10240 := by
    rw [bigMap_length]
    omega
  exact ⟨h,
    (c3_amended_overflow_flush (bigMap 10241) "k" ⟨Ty.i32, (7 : Int)⟩ 0 0 h).1⟩

/-- Claim C4, counterexample: on a poisoned lock, `main.rs`'s `Cache::get`
calls `.unwrap()` and panics (modelled as the outer `none`); it does not
return `None` to the caller (which would be `some none` in the model).
The claim says every operation of every variant degrades to a miss or
no-op instead of panicking. -/
theorem c4_counterexample :
    MainCache.get true false [] "a" Ty.i32 = none ∧
    MainCache.get true false [] "a" Ty.i32 ≠ some none :=
  ⟨rfl, fun h => Option.noConfusion h⟩

/-- Claim C4 (amended): for the `lib.rs` variants (`Cache`,
`CacheRwLock`), a poisoned lock makes `get` return `None` (for the map
lock and for the per-entry value lock) and makes `set`, `remove` and the
sweep leave the map unchanged and return normally; `main.rs`'s variant
instead panics (`.unwrap()`, modelled as `none`) in every operation when
its lock is poisoned. -/
theorem c4_amended_poison_safety (m : CacheMap) (k : String) (t : Ty)
    (v : AnyVal) (es now : Nat) :
    Cache.get true false m k t = none ∧
    Cache.get false true m k t = none ∧
    Cache.set true m k v es now = m ∧
    Cache.remove true m k = m ∧
    Cache.clear_expired_entries true m now = m ∧
    CacheRwLock.get true false m k t = none ∧
    CacheRwLock.get false true m k t = none ∧
    CacheRwLock.set true m k v es now = m ∧
    CacheRwLock.remove true m k = m ∧
    CacheRwLock.clear_expired_entries true m now = m ∧
    MainCache.get true false m k t = none ∧
    MainCache.set true m k v es now = none ∧
    MainCache.remove true m k = none ∧
    MainCache.clear_expired_entries true m now = none := by
  have hc : Cache.get false true m k t = none := by
    cases h : mapGet m k <;> simp [Cache.get, h]
  have hrw : CacheRwLock.get false true m k t = none := by
    cases h : mapGet m k <;> simp [CacheRwLock.get, h]
  exact ⟨rfl, hc, rfl, rfl, rfl, rfl, hrw, rfl, rfl, rfl, rfl, rfl, rfl, rfl⟩

/-- Claim C7, counterexample: with interval 10, the cooperative driver
(`async_cleanup_task`, built on `tokio::time::interval`, whose first tick
completes immediately) performs its first sweep at time 0, strictly
earlier than one full interval after start. -/
theorem c7_counterexample :
    asyncSweepTime 10 0 = 0 ∧ asyncSweepTime 10 0 < 10 := by
  decide

/-- Claim C7 (amended): the dedicated-thread driver
(`start_cleanup_thread`) sleeps first, so its first sweep happens no
earlier than one full interval after start; the cooperative tokio driver
(`async_cleanup_task`) performs its first sweep immediately on start,
because `tokio::time::interval`'s first tick completes immediately. -/
theorem c7_amended_first_sweep (secs : Nat) :
    secs ≤ threadSweepTime secs 0 ∧ asyncSweepTime secs 0 = 0 := by
  constructor
  · unfold threadSweepTime
    omega
  · unfold asyncSweepTime
    omega

/-- Helper for C8: after a `lib.rs` `set` (clear-then-insert when over
10240 entries, plain insert otherwise) the map has at most 10241 entries,
whatever its size before. -/
theorem set_length_le (m : CacheMap) (k : String) (e : Entry) :
    (mapInsert (if m.length > 10240 then [] else m) k e).length ≤ 10241 := by
  by_cases hlen : m.length > 10240
  · simp [hlen, mapInsert]
  · have h2 := mapInsert_length_le m k e
    rw [if_neg hlen]
    omega

/-- Helper for C8: one `Cache` operation preserves the size bound 10241. -/
theorem cache_applyOp_length (m : CacheMap) (op : Op)
    (h : m.length ≤ 10241) : (Cache.applyOp m op).length ≤ 10241 := by
  cases op with
  | opSet k v es now => exact set_length_le m k _
  | opGet k t => exact h
  | opRemove k =>
    have h2 := mapRemove_length_le m k
    show (mapRemove m k).length ≤ 10241
    omega
  | opSweep now =>
    show (List.filter _ m).length ≤ 10241
    have h2 := List.length_filter_le
      (fun kv : String × Entry =>
        kv.2.expiresAt.elim true fun et => decide (now < et)) m
    omega

/-- Helper for C8: one `CacheRwLock` operation preserves the bound. -/
theorem rwlock_applyOp_length (m : CacheMap) (op : Op)
    (h : m.length ≤ 10241) : (CacheRwLock.applyOp m op).length ≤ 10241 := by
  cases op with
  | opSet k v es now => exact set_length_le m k _
  | opGet k t => exact h
  | opRemove k =>
    have h2 := mapRemove_length_le m k
    show (mapRemove m k).length ≤ 10241
    omega
  | opSweep now =>
    show (List.filter _ m).length ≤ 10241
    have h2 := List.length_filter_le
      (fun kv : String × Entry =>
        match kv.2.expiresAt with
        | some time => decide (now ≤ time)
        | none => true) m
    omega

/-- Helper for C8: a whole operation sequence preserves the bound. -/
theorem cache_applyOps_length (ops : List Op) (m : CacheMap)
    (h : m.length ≤ 10241) : (Cache.applyOps m ops).length ≤ 10241 := by
  induction ops generalizing m with
  | nil => exact h
  | cons op rest ih => exact ih _ (cache_applyOp_length m op h)

/-- Helper for C8: a whole operation sequence preserves the bound
(`CacheRwLock`). -/
theorem rwlock_applyOps_length (ops : List Op) (m : CacheMap)
    (h : m.length ≤ 10241) : (CacheRwLock.applyOps m ops).length ≤ 10241 := by
  induction ops generalizing m with
  | nil => exact h
  | cons op rest ih => exact ih _ (rwlock_applyOp_length m op h)

/-- Claim C8: starting from the empty map, no sequence of `set` / `get` /
`remove` / `sweep` operations ever leaves a `lib.rs` `Cache` or
`CacheRwLock` with more than 10241 entries: `set` clears the map whenever
it finds more than 10240 entries before inserting one, and no other
operation grows the map. -/
theorem c8_size_invariant (ops : List Op) :
    (Cache.applyOps [] ops).length ≤ 10241 ∧
    (CacheRwLock.applyOps [] ops).length ≤ 10241 :=
  ⟨cache_applyOps_length ops [] (by simp),
    rwlock_applyOps_length ops [] (by simp)⟩

/-- Claim C10, counterexample: at `now = 7`, an entry with
`expires_at = 7` is removed by `Cache::clear_expired_entries` (strict
`et > now` retain predicate) but retained by
`CacheRwLock::clear_expired_entries` (non-strict `now <= time`), so the
two sweeps do not retain the same set of entries. -/
theorem c10_counterexample :
    Cache.clear_expired_entries false
      [("k", ⟨⟨Ty.u16, (3 : Nat)⟩, some 7⟩)] 7 = [] ∧
    CacheRwLock.clear_expired_entries false
      [("k", ⟨⟨Ty.u16, (3 : Nat)⟩, some 7⟩)] 7
      = [("k", ⟨⟨Ty.u16, (3 : Nat)⟩, some 7⟩)] ∧
    ([] : CacheMap) ≠ [("k", ⟨⟨Ty.u16, (3 : Nat)⟩, some 7⟩)] :=
  ⟨rfl, rfl, fun h => List.noConfusion h⟩

/-- Claim C10 (amended): the two sweeps agree on every map none of whose
entries expires exactly at the current instant; they differ precisely on
entries with `expires_at = now`, which `Cache` removes and `CacheRwLock`
retains. -/
theorem c10_amended_sweep_agreement (m : CacheMap) (now : Nat)
    (h : ∀ kv ∈ m, kv.2.expiresAt ≠ some now) :
    Cache.clear_expired_entries false m now
      = CacheRwLock.clear_expired_entries false m now := by
  show List.filter _ m = List.filter _ m
  refine List.filter_congr ?_
  intro kv hkv
  rcases he : kv.2.expiresAt with _ | et
  · rfl
  · have hne : et ≠ now := fun heq => h kv hkv (by rw [he, heq])
    simp only [Option.elim]
    rw [decide_eq_decide]
    omega

/-- Claim C10, witness for the amended theorem at a concrete map with no
entry expiring exactly at the sweep instant. -/
theorem c10_witness :
    Cache.clear_expired_entries false
      [("a", ⟨⟨Ty.i32, (1 : Int)⟩, some 3⟩)] 5
      = CacheRwLock.clear_expired_entries false
        [("a", ⟨⟨Ty.i32, (1 : Int)⟩, some 3⟩)] 5 :=
  c10_amended_sweep_agreement [("a", ⟨⟨Ty.i32, (1 : Int)⟩, some 3⟩)] 5
    (by decide)
